import Mathlib

/-!
Verification of the stdio JSON-RPC transport of clarifai-mcp-server-local
(`internal/mcp/server.go` and `internal/mcp/types.go`).

The transport is embedded shallowly: the reader and writer goroutines become
recursive Lean functions over the sequence of values they consume, and the
points where a goroutine can observe the shared cancellation context are made
explicit as an observation schedule (for the reader) or an event list (for the
writer).  Byte streams are `List UInt8`; the external `encoding/json` codec is
a parameter (`decode` / `encode`), since the transport only branches on whether
it succeeds.
-/

namespace Mcp

/-- A JSON value, the payload carried by the `interface{}` typed fields of the
wire structs (`ID`, map values, `Result`, `Data`). -/
inductive JsonValue where
  | null
  | bool (b : Bool)
  | num (n : Int)
  | str (s : String)
  | arr (elems : List JsonValue)
  | obj (fields : List (String × JsonValue))
  deriving Repr

/-- RequestParams holds the parameters for the MCP methods
(`internal/mcp/types.go`).  Go maps become association lists. -/
structure RequestParams where
  protocolVersion : String
  clientInfo : List (String × JsonValue)
  capabilities : List (String × JsonValue)
  name : String
  arguments : List (String × JsonValue)
  uri : String
  cursor : String
  deriving Repr

/-- JSONRPCRequest represents a JSON-RPC request (`internal/mcp/types.go`).
An absent `id` decodes to `JsonValue.null`, mirroring a nil `interface{}`. -/
structure JSONRPCRequest where
  jsonrpc : String
  id : JsonValue
  method : String
  params : RequestParams
  deriving Repr

/-- RPCError represents a JSON-RPC error object (`internal/mcp/types.go`). -/
structure RPCError where
  code : Int
  message : String
  data : JsonValue
  deriving Repr

/-- JSONRPCResponse represents a JSON-RPC response (`internal/mcp/types.go`). -/
structure JSONRPCResponse where
  jsonrpc : String
  id : JsonValue
  result : JsonValue
  error : Option RPCError
  deriving Repr

/-- NewErrorResponse creates a JSONRPCResponse populated with an error
(`internal/mcp/types.go`). -/
def NewErrorResponse (id : JsonValue) (code : Int) (message : String)
    (data : JsonValue) : JSONRPCResponse :=
  { jsonrpc := "2.0"
    id := id
    result := JsonValue.null
    error := some { code := code, message := message, data := data } }

/-- Byte strings, the unit of the raw streams (`scanner.Bytes()`, writes). -/
abbrev Bytes := List UInt8

/-- Maximum token size of a `bufio.Scanner` left with its default buffer:
`bufio.MaxScanTokenSize = 64 * 1024`.  The reader goroutine calls
`bufio.NewScanner(s.reader)` without `Buffer`, so this limit applies. -/
def maxScanTokenSize : Nat := 65536

/-- Model of the token sequence produced by `bufio.Scanner` with the default
`ScanLines` split over a stream whose lines are `stream` (newlines stripped):
`Scan` yields each line in order until a line of `maxScanTokenSize` bytes or
more, at which point scanning stops and `scanner.Err()` returns
`bufio.ErrTooLong` (the Boolean component; `false` means clean EOF with a nil
error).  The bound is strict at `maxScanTokenSize`: the buffer is capped at
`maxTokenSize` bytes and `ScanLines` must see the line together with its
terminating newline in the buffer (and for an unterminated final line, the
buffer fills completely before the EOF is observed), so only lines of at
most `maxScanTokenSize - 1` bytes are ever delivered. -/
def scanAll : List Bytes → List Bytes × Bool
  | [] => ([], false)
  | l :: ls =>
    if maxScanTokenSize ≤ l.length then ([], true)
    else
      let r := scanAll ls
      (l :: r.1, r.2)

/-- What the reader goroutine observes of the shared shutdown context during
one loop iteration (`server.go` lines 56-77).  `run`: the context was not done
at the top-of-loop select and the channel send (if one happens) is taken;
`cancelTop`: `shutdownCtx.Done()` fires at the top-of-loop select;
`cancelSend`: the context was not done at the top, but `Done()` fires while
the send on `readChan` is pending. -/
inductive ReaderObs where
  | run
  | cancelTop
  | cancelSend
  deriving DecidableEq, Repr

/-- How the reader goroutine exited. `eofExit`: `scanner.Scan` returned false
(EOF or scanner error) and the loop fell through to `s.cancelFunc()`;
`shutdownTop` / `shutdownSend`: the early `return`s on `shutdownCtx.Done()`. -/
inductive ReaderExit where
  | eofExit
  | shutdownTop
  | shutdownSend
  deriving DecidableEq, Repr

/-- Result of a finished run of the reader goroutine: the requests it sent on
`readChan` in order, how it exited, whether `close(s.readChan)` ran (the
`defer` makes this unconditional), and whether this goroutine itself called
`s.cancelFunc()` (only the fall-through path does). -/
structure ReaderResult where
  delivered : List JSONRPCRequest
  exitKind : ReaderExit
  readChanClosed : Bool
  cancelCalled : Bool
  deriving Repr

/-- The reader goroutine of `StdioServer.Start` (`server.go` lines 52-84) over
an already-scanned token list.  Each iteration: check the shutdown context
(select with default), `json.Unmarshal` the line — on failure `continue` —
then send on `readChan` in a select against `shutdownCtx.Done()`.  When the
token list is exhausted the loop ends and the goroutine closes `readChan`
(deferred) and calls `cancelFunc`.  `sched` supplies one `ReaderObs` per
iteration; an exhausted schedule means the context never fires (`run`). -/
def readerRun (decode : Bytes → Option JSONRPCRequest) :
    List Bytes → List ReaderObs → ReaderResult
  | [], _ => ⟨[], .eofExit, true, true⟩
  | line :: rest, sched =>
    match sched.headD .run with
    | .cancelTop => ⟨[], .shutdownTop, true, false⟩
    | obs =>
      match decode line with
      | none => readerRun decode rest sched.tail
      | some request =>
        match obs with
        | .cancelSend => ⟨[], .shutdownSend, true, false⟩
        | _ =>
          let r := readerRun decode rest sched.tail
          ⟨request :: r.delivered, r.exitKind, r.readChanClosed, r.cancelCalled⟩

/-- The reader goroutine applied to a raw line stream: the composition of the
`bufio.Scanner` model with the loop body (scanner errors and EOF exit the
loop the same way; the commented-out log is the only use of `scanner.Err()`). -/
def readerFromStream (decode : Bytes → Option JSONRPCRequest)
    (stream : List Bytes) (sched : List ReaderObs) : ReaderResult :=
  readerRun decode (scanAll stream).1 sched

/-- Outcome of the three fallible output steps the writer performs for one
message (`server.go` lines 109-126): `writer.Write(respBytes)`,
`writer.WriteString("\n")`, `writer.Flush()`. -/
structure WStep where
  writeOk : Bool
  newlineOk : Bool
  flushOk : Bool
  deriving DecidableEq, Repr

/-- One event the writer goroutine's select loop can wake up on
(`server.go` lines 91-102): the shutdown context firing, a receive from
`writeChan`, or `writeChan` being closed (`ok == false`).  A `recv` carries
the outcome oracle for the output steps attempted for that message. -/
inductive WriterEvent where
  | cancel
  | chanClosed
  | recv (r : JSONRPCResponse) (st : WStep)
  deriving Repr

/-- How the writer goroutine exited: the `shutdownCtx.Done()` case, the
`!ok` case of the channel receive, or one of the three write-error returns. -/
inductive WriterExit where
  | onCancel
  | onChanClosed
  | onWriteError
  deriving DecidableEq, Repr

/-- State of the writer goroutine: the `bufio.Writer` buffer, the bytes the
underlying output stream has received (only `Flush` moves buffer to output),
whether this goroutine called `s.cancelFunc()`, and whether (and how) it has
exited.  `exitKind = none` means it is still looping. -/
structure WriterState where
  buffer : Bytes
  output : Bytes
  cancelCalled : Bool
  exitKind : Option WriterExit
  deriving Repr

/-- The single byte written by `writer.WriteString("\n")`. -/
def newlineByte : Bytes := [10]

/-- Writer state at `bufio.NewWriter(s.writer)`: empty buffer, nothing
written, still running. -/
def initWriter : WriterState := ⟨[], [], false, none⟩

/-- The writer goroutine of `StdioServer.Start` (`server.go` lines 87-129).
On `cancel` or `chanClosed`: flush (error ignored) and exit.  On a received
response: `json.Marshal` — on error `continue`, skipping the response — then
write the payload, write the newline, flush; each of these three steps, on
failure, calls `s.cancelFunc()` and exits the goroutine.  A successful write
appends to the `bufio` buffer; a successful flush moves the buffer to the
output stream.  Events after an exit are never consumed. -/
def writerRun (encode : JSONRPCResponse → Option Bytes) :
    List WriterEvent → WriterState → WriterState
  | [], s => s
  | .cancel :: _, s =>
    { s with output := s.output ++ s.buffer, buffer := [],
             exitKind := some .onCancel }
  | .chanClosed :: _, s =>
    { s with output := s.output ++ s.buffer, buffer := [],
             exitKind := some .onChanClosed }
  | .recv r st :: rest, s =>
    match encode r with
    | none => writerRun encode rest s
    | some respBytes =>
      if st.writeOk = false then
        { s with cancelCalled := true, exitKind := some .onWriteError }
      else if st.newlineOk = false then
        { s with buffer := s.buffer ++ respBytes,
                 cancelCalled := true, exitKind := some .onWriteError }
      else if st.flushOk = false then
        { s with buffer := s.buffer ++ respBytes ++ newlineByte,
                 cancelCalled := true, exitKind := some .onWriteError }
      else
        writerRun encode rest
          { s with output := s.output ++ s.buffer ++ respBytes ++ newlineByte,
                   buffer := [] }

/-- The bytes one successfully written response contributes to the output
stream: its serialization followed by exactly one newline. -/
def respBlock (encode : JSONRPCResponse → Option Bytes)
    (r : JSONRPCResponse) : Bytes :=
  (encode r).getD [] ++ newlineByte

/-- Concatenation of the per-response byte blocks, in submission order. -/
def joinBlocks (encode : JSONRPCResponse → Option Bytes)
    (resps : List JSONRPCResponse) : Bytes :=
  (resps.map (respBlock encode)).flatten

/-- The event list of a burst of responses all of whose output steps
succeed. -/
def okRecvs (resps : List JSONRPCResponse) : List WriterEvent :=
  resps.map fun r => WriterEvent.recv r ⟨true, true, true⟩

/-- Shared lifecycle state of a `StdioServer` (`server.go` lines 22-31):
whether `cancelFunc` has been called (the context is one-shot), whether each
goroutine has run `wg.Done()`, and whether each channel has been closed. -/
structure StdioServerState where
  cancelled : Bool
  readerDone : Bool
  writerDone : Bool
  readChanClosed : Bool
  writeChanClosed : Bool
  deriving DecidableEq, Repr

/-- State produced by `NewStdioServer` followed by `Start`. -/
def initState : StdioServerState := ⟨false, false, false, false, false⟩

/-- Model of `s.cancelFunc()`: sets the one-shot flag (idempotent). -/
def cancelFunc (s : StdioServerState) : StdioServerState :=
  { s with cancelled := true }

/-- Condition under which `StdioServer.Wait` (`server.go` lines 143-147)
returns: the receive on `shutdownCtx.Done()` completes (the context was
cancelled) and `wg.Wait()` completes (both goroutines called `wg.Done()`). -/
def waitReturns (s : StdioServerState) : Bool :=
  s.cancelled && s.readerDone && s.writerDone

/-- State once `Wait` has returned: both goroutines have exited (the blocking
`wg.Wait()` guarantees it) and the reader's deferred `close(s.readChan)` has
run. -/
def afterWait (s : StdioServerState) : StdioServerState :=
  { s with readerDone := true, writerDone := true, readChanClosed := true }

/-- Runtime faults of the Go channel primitives used by the transport. -/
inductive GoFault where
  | closeOfClosedChannel
  deriving DecidableEq, Repr

/-- Ordered milestones of one `Close` call, used to state in which order the
shutdown steps happen. -/
inductive LifeEvent where
  | cancelFired
  | readerExited
  | writerExited
  | writeChanCloseEv
  deriving DecidableEq, Repr

/-- The milestone order of `StdioServer.Close`: `cancelFunc()` first, then
`Wait` returns only after both goroutines exited, then `close(s.writeChan)`. -/
def closeTrace : List LifeEvent :=
  [.cancelFired, .readerExited, .writerExited, .writeChanCloseEv]

/-- Model of `StdioServer.Close` (`server.go` lines 150-156): `cancelFunc()`;
`Wait()`; `close(s.writeChan)`; `return nil`.  Closing an already closed
channel is a Go runtime fault, which `Except.error` captures; on success the
result carries the final state, the milestone trace, and the returned error
value (`none` models `nil`). -/
def closeTransport (s : StdioServerState) :
    Except GoFault (StdioServerState × List LifeEvent × Option GoFault) :=
  let s1 := cancelFunc s
  let s2 := afterWait s1
  if s2.writeChanClosed then .error .closeOfClosedChannel
  else .ok ({ s2 with writeChanClosed := true }, closeTrace, none)

/-- Lifecycle state assembled from a finished reader run and a writer state:
the context is cancelled if an external `Close` fired it or either goroutine
called `cancelFunc`; `readerDone` holds because a `ReaderResult` is by
construction the state of an exited reader; the writer is done when it has an
exit kind. -/
def unitsState (externalCancel : Bool) (r : ReaderResult) (w : WriterState) :
    StdioServerState :=
  { cancelled := externalCancel || r.cancelCalled || w.cancelCalled
    readerDone := true
    writerDone := w.exitKind.isSome
    readChanClosed := r.readChanClosed
    writeChanClosed := false }

theorem readerRun_noCancel (decode : Bytes → Option JSONRPCRequest)
    (lines : List Bytes) :
    readerRun decode lines [] = ⟨lines.filterMap decode, .eofExit, true, true⟩ := by
  induction lines with
  | nil => rfl
  | cons l ls ih =>
    cases h : decode l <;>
      simp [readerRun, h, ih, List.filterMap_cons]

theorem readerRun_runSegment (decode : Bytes → Option JSONRPCRequest)
    (pre rest : List Bytes) (sched : List ReaderObs) :
    readerRun decode (pre ++ rest) (List.replicate pre.length .run ++ sched)
      = { readerRun decode rest sched with
          delivered := pre.filterMap decode
            ++ (readerRun decode rest sched).delivered } := by
  induction pre with
  | nil => simp
  | cons l ls ih =>
    cases h : decode l <;>
      simp [readerRun, h, ih, List.filterMap_cons, List.replicate_succ]

theorem scanAll_below_limit (pre rest : List Bytes)
    (h : ∀ l ∈ pre, l.length < maxScanTokenSize) :
    scanAll (pre ++ rest) = (pre ++ (scanAll rest).1, (scanAll rest).2) := by
  induction pre with
  | nil => simp
  | cons l ls ih =>
    have hl : ¬ maxScanTokenSize ≤ l.length :=
      Nat.not_le.mpr (h l (List.mem_cons_self l ls))
    simp [scanAll, hl, ih fun x hx => h x (List.mem_cons_of_mem l hx)]

theorem writer_exits_on_final_cancel (encode : JSONRPCResponse → Option Bytes)
    (evs : List WriterEvent) (s : WriterState) :
    (writerRun encode (evs ++ [.cancel]) s).exitKind.isSome := by
  induction evs generalizing s with
  | nil => simp [writerRun]
  | cons e rest ih =>
    cases e with
    | cancel => simp [writerRun]
    | chanClosed => simp [writerRun]
    | recv r st =>
      cases h : encode r with
      | none => simpa [writerRun, h] using ih s
      | some bs =>
        by_cases hw : st.writeOk = false
        · simp [writerRun, h, hw]
        · by_cases hn : st.newlineOk = false
          · simp [writerRun, h, hw, hn]
          · by_cases hf : st.flushOk = false
            · simp [writerRun, h, hw, hn, hf]
            · simpa [writerRun, h, hw, hn, hf] using ih _

theorem writer_cancel_only_on_write_error (encode : JSONRPCResponse → Option Bytes)
    (evs : List WriterEvent) (s : WriterState) (hs : s.cancelCalled = false)
    (h : (writerRun encode evs s).cancelCalled = true) :
    (writerRun encode evs s).exitKind = some .onWriteError := by
  induction evs generalizing s with
  | nil => simp_all [writerRun]
  | cons e rest ih =>
    cases e with
    | cancel => simp_all [writerRun]
    | chanClosed => simp_all [writerRun]
    | recv r st =>
      cases henc : encode r with
      | none =>
        rw [writerRun] at h ⊢
        simp only [henc] at h ⊢
        exact ih s hs h
      | some bs =>
        by_cases hw : st.writeOk = false
        · simp [writerRun, henc, hw]
        · by_cases hn : st.newlineOk = false
          · simp [writerRun, henc, hw, hn]
          · by_cases hf : st.flushOk = false
            · simp [writerRun, henc, hw, hn, hf]
            · rw [writerRun] at h ⊢
              simp only [henc, hw, hn, hf, if_false] at h ⊢
              exact ih _ hs h

theorem writer_ok_burst (encode : JSONRPCResponse → Option Bytes)
    (resps : List JSONRPCResponse) (s : WriterState)
    (hEnc : ∀ r ∈ resps, (encode r).isSome) (hBuf : s.buffer = []) :
    writerRun encode (okRecvs resps) s
      = { s with output := s.output ++ joinBlocks encode resps } := by
  induction resps generalizing s with
  | nil => simp [okRecvs, joinBlocks, writerRun]
  | cons r rest ih =>
    obtain ⟨bs, hbs⟩ := Option.isSome_iff_exists.mp
      (hEnc r (List.mem_cons_self r rest))
    have hrest : ∀ x ∈ rest, (encode x).isSome :=
      fun x hx => hEnc x (List.mem_cons_of_mem r hx)
    have hstep := ih
      { s with output := s.output ++ (bs ++ newlineByte), buffer := [] }
      hrest rfl
    simp [okRecvs, writerRun, hbs, hBuf, joinBlocks, respBlock,
      List.append_assoc] at hstep ⊢
    exact hstep

/-- Concrete empty parameter block, for concrete instantiations. -/
def sampleParams : RequestParams := ⟨"", [], [], "", [], "", ""⟩

/-- A concrete request with numeric id `n` and method `ping`. -/
def sampleReq (n : Int) : JSONRPCRequest :=
  { jsonrpc := "2.0", id := .num n, method := "ping", params := sampleParams }

/-- A concrete decoder standing in for `json.Unmarshal`: byte `1` and byte
`2` decode, everything else is malformed. -/
def sampleDecode : Bytes → Option JSONRPCRequest :=
  fun b =>
    if b = [49] then some (sampleReq 1)
    else if b = [50] then some (sampleReq 2)
    else none

/-- A concrete response with numeric id `n`. -/
def sampleResp (n : Int) : JSONRPCResponse :=
  { jsonrpc := "2.0", id := .num n, result := .str "pong", error := none }

/-- A concrete serializer standing in for `json.Marshal`: responses with id
`1` or `2` serialize, everything else fails. -/
def sampleEncode : JSONRPCResponse → Option Bytes :=
  fun r =>
    match r.id with
    | .num 1 => some [65]
    | .num 2 => some [66]
    | _ => none

/-- C1: for every sequence of N well-formed Request lines, the reader
goroutine delivers exactly N Requests on `readChan`, in input order, and each
delivered Request is precisely the value `json.Unmarshal` decoded from its
line (so its `id` and `method` fields are those decoded from the line). -/
theorem requests_delivered_in_order (decode : Bytes → Option JSONRPCRequest)
    (lines : List Bytes) (h : ∀ l ∈ lines, (decode l).isSome) :
    List.Forall₂ (fun l r => decode l = some r) lines
      (readerRun decode lines []).delivered
    ∧ (readerRun decode lines []).delivered.length = lines.length := by
  rw [readerRun_noCancel]
  have hF : List.Forall₂ (fun l r => decode l = some r) lines
      (lines.filterMap decode) := by
    induction lines with
    | nil => simp
    | cons l ls ih =>
      obtain ⟨q, hq⟩ := Option.isSome_iff_exists.mp
        (h l (List.mem_cons_self l ls))
      rw [List.filterMap_cons, hq]
      exact List.Forall₂.cons hq (ih fun x hx => h x (List.mem_cons_of_mem l hx))
  exact ⟨hF, hF.length_eq.symm⟩

/-- Witness for C1 at two concrete well-formed lines. -/
theorem requests_delivered_in_order_witness :
    (∀ l ∈ [[49], [50]], ((sampleDecode l).isSome : Prop))
    ∧ (List.Forall₂ (fun l r => sampleDecode l = some r) [[49], [50]]
        (readerRun sampleDecode [[49], [50]] []).delivered
      ∧ (readerRun sampleDecode [[49], [50]] []).delivered.length
          = ([[49], [50]] : List Bytes).length) :=
  ⟨by decide, requests_delivered_in_order sampleDecode [[49], [50]] (by decide)⟩

/-- C3: a line on which `json.Unmarshal` fails puts nothing on `readChan` and
generates no response (the reader never produces responses at all); the
reader does not terminate there (it still runs to end of input, exit kind
`eofExit`), well-formed lines before and after the malformed one are still
delivered, and everything delivered on `readChan` is the successful decoding
of some input line. -/
theorem malformed_line_skipped (decode : Bytes → Option JSONRPCRequest)
    (pre post : List Bytes) (bad : Bytes) (hbad : decode bad = none) :
    (readerRun decode (pre ++ bad :: post) []).delivered
        = pre.filterMap decode ++ post.filterMap decode
    ∧ (readerRun decode (pre ++ bad :: post) []).exitKind = .eofExit
    ∧ ∀ lines : List Bytes, ∀ r ∈ (readerRun decode lines []).delivered,
        ∃ l ∈ lines, decode l = some r := by
  refine ⟨?_, by rw [readerRun_noCancel], ?_⟩
  · rw [readerRun_noCancel]
    simp [List.filterMap_append, List.filterMap_cons, hbad]
  · intro lines r hr
    rw [readerRun_noCancel] at hr
    simpa using List.mem_filterMap.mp hr

/-- Witness for C3: a malformed line between two well-formed ones. -/
theorem malformed_line_skipped_witness :
    sampleDecode [99] = none
    ∧ ((readerRun sampleDecode ([[49]] ++ [99] :: [[50]]) []).delivered
        = ([[49]] : List Bytes).filterMap sampleDecode
            ++ ([[50]] : List Bytes).filterMap sampleDecode
      ∧ (readerRun sampleDecode ([[49]] ++ [99] :: [[50]]) []).exitKind
          = .eofExit
      ∧ ∀ lines : List Bytes,
          ∀ r ∈ (readerRun sampleDecode lines []).delivered,
            ∃ l ∈ lines, sampleDecode l = some r) :=
  ⟨rfl, malformed_line_skipped sampleDecode [[49]] [[50]] [99] rfl⟩

/-- C2: every Response taken from `writeChan` whose serialization succeeds
contributes to the output stream exactly its JSON encoding followed by one
newline byte (`respBlock`), blocks appear contiguously in submission order
(`joinBlocks`), and the `bufio` buffer is flushed (empty) after every prefix
of the burst, i.e. before the next Response is processed — so the byte
sequences of two successive Responses are never interleaved. -/
theorem responses_written_whole (encode : JSONRPCResponse → Option Bytes)
    (resps : List JSONRPCResponse)
    (hEnc : ∀ r ∈ resps, (encode r).isSome) :
    (writerRun encode (okRecvs resps) initWriter).output = joinBlocks encode resps
    ∧ (writerRun encode (okRecvs resps) initWriter).buffer = []
    ∧ (writerRun encode (okRecvs resps) initWriter).cancelCalled = false
    ∧ ∀ pre suf, resps = pre ++ suf →
        (writerRun encode (okRecvs pre) initWriter).buffer = []
        ∧ (writerRun encode (okRecvs pre) initWriter).output
            = joinBlocks encode pre := by
  have h := writer_ok_burst encode resps initWriter hEnc rfl
  refine ⟨by rw [h]; rfl, by rw [h]; rfl, by rw [h]; rfl, ?_⟩
  intro pre suf hsplit
  have hpre : ∀ r ∈ pre, (encode r).isSome := fun r hr =>
    hEnc r (hsplit ▸ List.mem_append_left suf hr)
  have h2 := writer_ok_burst encode pre initWriter hpre rfl
  exact ⟨by rw [h2]; rfl, by rw [h2]; rfl⟩

/-- Witness for C2 at two concrete serializable responses. -/
theorem responses_written_whole_witness :
    (∀ r ∈ [sampleResp 1, sampleResp 2], ((sampleEncode r).isSome : Prop))
    ∧ ((writerRun sampleEncode (okRecvs [sampleResp 1, sampleResp 2])
          initWriter).output = joinBlocks sampleEncode [sampleResp 1, sampleResp 2]
      ∧ (writerRun sampleEncode (okRecvs [sampleResp 1, sampleResp 2])
          initWriter).buffer = []
      ∧ (writerRun sampleEncode (okRecvs [sampleResp 1, sampleResp 2])
          initWriter).cancelCalled = false
      ∧ ∀ pre suf, [sampleResp 1, sampleResp 2] = pre ++ suf →
          (writerRun sampleEncode (okRecvs pre) initWriter).buffer = []
          ∧ (writerRun sampleEncode (okRecvs pre) initWriter).output
              = joinBlocks sampleEncode pre) :=
  ⟨by decide, responses_written_whole sampleEncode
    [sampleResp 1, sampleResp 2] (by decide)⟩

/-- C4: when the input is exhausted (EOF, or a scanner error ends the loop)
and no Close was called (empty observation schedule: the context never fired
from outside), the reader goroutine exits through the fall-through path,
`readChan` is closed, and `cancelFunc` is called; the writer, once it sees
the now-cancelled context, exits as well, and `Wait` — cancelled context plus
both goroutines done — returns. -/
theorem eof_triggers_shutdown (decode : Bytes → Option JSONRPCRequest)
    (lines : List Bytes) (encode : JSONRPCResponse → Option Bytes)
    (evs : List WriterEvent) :
    (readerRun decode lines []).exitKind = .eofExit
    ∧ (readerRun decode lines []).readChanClosed = true
    ∧ (readerRun decode lines []).cancelCalled = true
    ∧ (writerRun encode (evs ++ [.cancel]) initWriter).exitKind.isSome = true
    ∧ waitReturns (unitsState false (readerRun decode lines [])
        (writerRun encode (evs ++ [.cancel]) initWriter)) = true := by
  have hr := readerRun_noCancel decode lines
  have hw := writer_exits_on_final_cancel encode evs initWriter
  refine ⟨by rw [hr], by rw [hr], by rw [hr], by simpa using hw, ?_⟩
  simp [waitReturns, unitsState, hr, hw]

/-- C7: if the cancellation signal has already fired (external cancel), the
reader observes it at its next suspension point and exits delivering nothing
more, the writer's select takes the `Done` case and exits, and `Wait` —
a completed receive on the done context plus `wg.Wait` over the two exited
goroutines — returns rather than blocking. -/
theorem wait_returns_after_cancel (decode : Bytes → Option JSONRPCRequest)
    (lines : List Bytes) (sched : List ReaderObs)
    (encode : JSONRPCResponse → Option Bytes) (evs : List WriterEvent) :
    (readerRun decode lines (.cancelTop :: sched)).delivered = []
    ∧ (writerRun encode (.cancel :: evs) initWriter).exitKind = some .onCancel
    ∧ waitReturns (unitsState true (readerRun decode lines (.cancelTop :: sched))
        (writerRun encode (.cancel :: evs) initWriter)) = true := by
  refine ⟨?_, by simp [writerRun], ?_⟩
  · cases lines <;> simp [readerRun]
  · simp [waitReturns, unitsState, writerRun]

/-- C5: `Close` = `cancelFunc(); Wait(); close(writeChan); return nil`.  From
any state in which `writeChan` is not yet closed, `Close` returns `nil`
having fired cancellation, with both goroutines exited, `readChan` closed
(the reader's defer) and `writeChan` closed; in the milestone trace the
writer's exit strictly precedes the closing of `writeChan`; and a writer that
has taken the cancel branch consumes no further events, so no further bytes
are written after `Close` returns. -/
theorem close_quiesces_transport (s : StdioServerState)
    (encode : JSONRPCResponse → Option Bytes) (evs : List WriterEvent)
    (w : WriterState) (h : s.writeChanClosed = false) :
    closeTransport s = .ok (⟨true, true, true, true, true⟩, closeTrace, none)
    ∧ closeTrace.indexOf .writerExited < closeTrace.indexOf .writeChanCloseEv
    ∧ writerRun encode (.cancel :: evs) w = writerRun encode [.cancel] w := by
  refine ⟨?_, by decide, by simp [writerRun]⟩
  simp [closeTransport, cancelFunc, afterWait, h]

/-- Witness for C5 from the freshly started state. -/
theorem close_quiesces_transport_witness :
    initState.writeChanClosed = false
    ∧ (closeTransport initState
        = .ok (⟨true, true, true, true, true⟩, closeTrace, none)
      ∧ closeTrace.indexOf .writerExited < closeTrace.indexOf .writeChanCloseEv
      ∧ writerRun sampleEncode (.cancel :: [WriterEvent.chanClosed]) initWriter
          = writerRun sampleEncode [.cancel] initWriter) :=
  ⟨rfl, close_quiesces_transport initState sampleEncode
    [WriterEvent.chanClosed] initWriter rfl⟩

/-- C6 is violated by the code: the first `Close` succeeds and returns `nil`,
but a second `Close` reaches `close(s.writeChan)` with the channel already
closed, which is a Go runtime panic (`close of closed channel`), not a
success return.  `StdioServer.Close` has no `sync.Once` or closed-flag
guard. -/
theorem close_second_call_faults :
    closeTransport initState
        = .ok (⟨true, true, true, true, true⟩, closeTrace, none)
    ∧ closeTransport ⟨true, true, true, true, true⟩
        = .error .closeOfClosedChannel :=
  ⟨rfl, rfl⟩

/-- C8: with a serializable response, failure of any of the three output
steps — payload write, newline write, flush — makes the writer call
`cancelFunc` and exit with the write-error exit kind; a response that fails
to serialize is simply dropped, the writer continuing with the remaining
events; and a writer that starts with `cancelCalled` unset only ever sets it
on the write-error path, so write failures are the only writer-side trigger
of transport shutdown. -/
theorem writer_failure_modes (encode : JSONRPCResponse → Option Bytes)
    (r rBad : JSONRPCResponse) (st : WStep) (respBytes : Bytes)
    (rest : List WriterEvent) (s : WriterState)
    (hEnc : encode r = some respBytes)
    (hFail : st.writeOk = false ∨ st.newlineOk = false ∨ st.flushOk = false)
    (hBad : encode rBad = none) (hs : s.cancelCalled = false) :
    ((writerRun encode (.recv r st :: rest) s).cancelCalled = true
      ∧ (writerRun encode (.recv r st :: rest) s).exitKind = some .onWriteError)
    ∧ writerRun encode (.recv rBad st :: rest) s = writerRun encode rest s
    ∧ ∀ evs, (writerRun encode evs s).cancelCalled = true →
        (writerRun encode evs s).exitKind = some .onWriteError := by
  have key : (writerRun encode (.recv r st :: rest) s).cancelCalled = true
      ∧ (writerRun encode (.recv r st :: rest) s).exitKind
          = some .onWriteError := by
    rcases hFail with hw | hn | hf
    · simp [writerRun, hEnc, hw]
    · by_cases hw : st.writeOk = false
      · simp [writerRun, hEnc, hw]
      · simp [writerRun, hEnc, hw, hn]
    · by_cases hw : st.writeOk = false
      · simp [writerRun, hEnc, hw]
      · by_cases hn : st.newlineOk = false
        · simp [writerRun, hEnc, hw, hn]
        · simp [writerRun, hEnc, hw, hn, hf]
  exact ⟨key, by simp [writerRun, hBad],
    fun evs hc => writer_cancel_only_on_write_error encode evs s hs hc⟩

/-- Witness for C8: a failing flush on one response, a dropped unserializable
response, from the initial writer state. -/
theorem writer_failure_modes_witness :
    (sampleEncode (sampleResp 1) = some [65]
      ∧ ((⟨true, true, false⟩ : WStep).writeOk = false
          ∨ (⟨true, true, false⟩ : WStep).newlineOk = false
          ∨ (⟨true, true, false⟩ : WStep).flushOk = false)
      ∧ sampleEncode (sampleResp 3) = none
      ∧ initWriter.cancelCalled = false)
    ∧ (((writerRun sampleEncode (.recv (sampleResp 1) ⟨true, true, false⟩ :: [])
          initWriter).cancelCalled = true
        ∧ (writerRun sampleEncode (.recv (sampleResp 1) ⟨true, true, false⟩ :: [])
            initWriter).exitKind = some .onWriteError)
      ∧ writerRun sampleEncode (.recv (sampleResp 3) ⟨true, true, false⟩ :: [])
          initWriter = writerRun sampleEncode [] initWriter
      ∧ ∀ evs, (writerRun sampleEncode evs initWriter).cancelCalled = true →
          (writerRun sampleEncode evs initWriter).exitKind
            = some .onWriteError) :=
  ⟨⟨rfl, Or.inr (Or.inr rfl), rfl, rfl⟩,
    writer_failure_modes sampleEncode (sampleResp 1) (sampleResp 3)
      ⟨true, true, false⟩ [65] [] initWriter rfl
      (Or.inr (Or.inr rfl)) rfl rfl⟩

/-- C9: if the context fires while the send of a decoded Request on
`readChan` is pending, the reader abandons the send — the Request is not
delivered, nor is anything after it — and exits through the in-send select's
`Done` branch (`shutdownSend`), closing `readChan` via the defer and calling
no error reporting and not `cancelFunc` (the exit is orderly shutdown). -/
theorem pending_send_abandoned_on_cancel (decode : Bytes → Option JSONRPCRequest)
    (pre : List Bytes) (line : Bytes) (post : List Bytes)
    (req : JSONRPCRequest) (h : decode line = some req) :
    readerRun decode (pre ++ line :: post)
        (List.replicate pre.length .run ++ [.cancelSend])
      = ⟨pre.filterMap decode, .shutdownSend, true, false⟩ := by
  rw [readerRun_runSegment]
  simp [readerRun, h]

/-- Witness for C9: the cancellation fires during the send of the second
line's request. -/
theorem pending_send_abandoned_on_cancel_witness :
    sampleDecode [49] = some (sampleReq 1)
    ∧ readerRun sampleDecode ([[50]] ++ [49] :: [])
        (List.replicate ([[50]] : List Bytes).length .run ++ [.cancelSend])
      = ⟨([[50]] : List Bytes).filterMap sampleDecode, .shutdownSend,
          true, false⟩ :=
  ⟨rfl, pending_send_abandoned_on_cancel sampleDecode [[50]] [49] []
    (sampleReq 1) rfl⟩

/-- C10: a line longer than `bufio.MaxScanTokenSize` (65536 bytes; in fact
already a line of exactly 65536 bytes, since the capped buffer must also
hold the newline) makes `scanner.Scan` stop with `ErrTooLong` (the error
component is `true`): the oversized line is not skipped — neither it nor
anything after it is delivered — and the reader goroutine leaves its loop
exactly as at EOF, closing `readChan` and calling `cancelFunc`, after which
the writer exits and `Wait` returns: one oversized line shuts the whole
transport down.  The preceding lines must be deliverable at all, i.e.
strictly shorter than `maxScanTokenSize`. -/
theorem oversized_line_shuts_down (decode : Bytes → Option JSONRPCRequest)
    (pre : List Bytes) (big : Bytes) (post : List Bytes)
    (encode : JSONRPCResponse → Option Bytes) (evs : List WriterEvent)
    (hpre : ∀ l ∈ pre, l.length < maxScanTokenSize)
    (hbig : maxScanTokenSize < big.length) :
    scanAll (pre ++ big :: post) = (pre, true)
    ∧ readerFromStream decode (pre ++ big :: post) []
        = ⟨pre.filterMap decode, .eofExit, true, true⟩
    ∧ waitReturns (unitsState false
        (readerFromStream decode (pre ++ big :: post) [])
        (writerRun encode (evs ++ [.cancel]) initWriter)) = true := by
  have hscan : scanAll (pre ++ big :: post) = (pre, true) := by
    rw [scanAll_below_limit pre _ hpre]
    simp [scanAll, Nat.le_of_lt hbig]
  have hread : readerFromStream decode (pre ++ big :: post) []
      = ⟨pre.filterMap decode, .eofExit, true, true⟩ := by
    rw [readerFromStream, hscan]
    exact readerRun_noCancel decode pre
  refine ⟨hscan, hread, ?_⟩
  simp [waitReturns, unitsState, hread,
    writer_exits_on_final_cancel encode evs initWriter]

/-- Witness for C10 with a single 65537-byte line. -/
theorem oversized_line_shuts_down_witness :
    ((∀ l ∈ ([] : List Bytes), l.length < maxScanTokenSize)
      ∧ maxScanTokenSize < (List.replicate 65537 (0 : UInt8)).length)
    ∧ (scanAll ([] ++ List.replicate 65537 (0 : UInt8) :: [])
        = ([], true)
      ∧ readerFromStream sampleDecode
          ([] ++ List.replicate 65537 (0 : UInt8) :: []) []
        = ⟨([] : List Bytes).filterMap sampleDecode, .eofExit, true, true⟩
      ∧ waitReturns (unitsState false
          (readerFromStream sampleDecode
            ([] ++ List.replicate 65537 (0 : UInt8) :: []) [])
          (writerRun sampleEncode ([] ++ [.cancel]) initWriter)) = true) :=
  ⟨⟨by decide, by rw [List.length_replicate]; decide⟩,
    oversized_line_shuts_down sampleDecode [] (List.replicate 65537 0) []
      sampleEncode [] (by decide) (by rw [List.length_replicate]; decide)⟩

end Mcp
